import Mathlib

/-!
Shallow embedding of the food-delivery backend (`app/models.py`, `app/utils.py`,
`app/main.py`, `app/consumers.py`).  Prices and amounts are modelled as exact
rationals, database tables as association lists (Python dicts / SQLAlchemy
first-match queries), and handlers as pure functions returning `Except`,
where an error value corresponds to an `HTTPException` raised before any
mutation was committed.
-/

namespace FoodDelivery

/-- `UserRole` enum from `models.py`. -/
inductive UserRole
  | ADMIN
  | RESTAURANT
  | CUSTOMER
  | DELIVERY_AGENT
deriving DecidableEq, Repr

/-- `OrderStatus` enum from `models.py` (`ASSIGNED` prints as
`assigned_to_delivery`). -/
inductive OrderStatus
  | PLACED
  | ACCEPTED
  | ASSIGNED
  | PICKED_UP
  | DELIVERED
deriving DecidableEq, Repr, Fintype

/-- The `valid_transitions` adjacency list from `update_order_status` in
`main.py`. -/
def validTransitions : OrderStatus → List OrderStatus
  | OrderStatus.PLACED => [OrderStatus.ACCEPTED]
  | OrderStatus.ACCEPTED => [OrderStatus.ASSIGNED]
  | OrderStatus.ASSIGNED => [OrderStatus.PICKED_UP]
  | OrderStatus.PICKED_UP => [OrderStatus.DELIVERED]
  | OrderStatus.DELIVERED => []

/-- Position of a status along the chain
`placed, accepted, assigned_to_delivery, picked_up, delivered`. -/
def statusIdx : OrderStatus → Nat
  | OrderStatus.PLACED => 0
  | OrderStatus.ACCEPTED => 1
  | OrderStatus.ASSIGNED => 2
  | OrderStatus.PICKED_UP => 3
  | OrderStatus.DELIVERED => 4

/-- `OrderItemDict` pydantic model: one line item of an order. -/
structure OrderItemDict where
  item_id : String
  quantity : Nat
deriving DecidableEq, Repr

/-- The persisted fields of `OrderModel` that the handlers read or write. -/
structure OrderSt where
  id : String
  customer_id : String
  restaurant_id : String
  delivery_agent_id : Option String
  items : List OrderItemDict
  total_amount : ℚ
  status : OrderStatus
deriving DecidableEq, Repr

/-- `OrderUpdate` request body for `PUT /orders/{order_id}`. -/
structure OrderUpdate where
  status : OrderStatus
  delivery_agent_id : Option String := none
deriving DecidableEq, Repr

/-- The fields of `MenuItemModel` used by the handlers. -/
structure MenuItemRec where
  restaurant_id : String
  name : String
  description : String
  price : ℚ
  is_available : Bool
deriving DecidableEq, Repr

/-- `MenuItemBase` request body for menu creation and update. -/
structure MenuItemBase where
  name : String
  description : String
  price : ℚ
  is_available : Bool
deriving DecidableEq, Repr

/-- The fields of `PaymentModel` written by `process_payment`. -/
structure PaymentRec where
  id : String
  order_id : String
  amount : ℚ
  restaurant_share : ℚ
  delivery_fee : ℚ
  status : String
deriving DecidableEq, Repr

/-- The `HTTPException`s raised by the handlers, with the data their `detail`
strings carry.  `invalidTransition` records the attempted from/to pair, as in
`Invalid status transition from ... to ...`. -/
inductive ApiError
  | notFound (what : String)
  | unauthorized (what : String)
  | invalidTransition (fromSt toSt : OrderStatus)
  | badRequest (what : String)
deriving DecidableEq, Repr

/-- The database tables touched by the claims, as first-match association
lists (mirroring `query(...).filter(id == ...).first()`). -/
structure Db where
  users : List (String × UserRole)
  menu_items : List (String × MenuItemRec)
  orders : List (String × OrderSt)
  payments : List PaymentRec
deriving DecidableEq, Repr

/-- First-match lookup in an association list (a dict access, or an SQL
`filter(key == k).first()`). -/
def getA {β : Type} (k : String) : List (String × β) → Option β
  | [] => none
  | (k', v) :: rest => if k = k' then some v else getA k rest

/-- Update the first binding of `k` in place, appending at the end when the
key is absent (Python dict assignment semantics). -/
def setA {β : Type} (k : String) (v : β) : List (String × β) → List (String × β)
  | [] => [(k, v)]
  | (k', v') :: rest => if k = k' then (k, v) :: rest else (k', v') :: setA k v rest

/-- Delete the first binding of `k` (Python `del d[k]`). -/
def delA {β : Type} (k : String) : List (String × β) → List (String × β)
  | [] => []
  | (k', v') :: rest => if k = k' then rest else (k', v') :: delA k rest

theorem getA_setA_self {β : Type} (k : String) (v : β) (l : List (String × β)) :
    getA k (setA k v l) = some v := by
  induction l with
  | nil => simp [setA, getA]
  | cons head rest ih =>
    obtain ⟨k', v'⟩ := head
    by_cases h : k = k'
    · simp [setA, getA, h]
    · simp [setA, getA, h, ih]

theorem setA_ne_nil {β : Type} (k : String) (v : β) (l : List (String × β)) :
    setA k v l ≠ [] := by
  cases l with
  | nil => simp [setA]
  | cons head rest =>
    obtain ⟨k', v'⟩ := head
    by_cases h : k = k' <;> simp [setA, h]

theorem mem_setA {β : Type} {k : String} {v : β} {l : List (String × β)}
    {p : String × β} (hp : p ∈ setA k v l) : p = (k, v) ∨ p ∈ l := by
  induction l with
  | nil => simpa [setA] using hp
  | cons head rest ih =>
    obtain ⟨k', v'⟩ := head
    by_cases h : k = k'
    · subst h
      simp [setA] at hp
      rcases hp with hp | hp
      · exact Or.inl hp
      · exact Or.inr (List.mem_cons_of_mem _ hp)
    · simp [setA, h] at hp
      rcases hp with hp | hp
      · exact Or.inr (by simp [hp])
      · rcases ih hp with hp' | hp'
        · exact Or.inl hp'
        · exact Or.inr (List.mem_cons_of_mem _ hp')

theorem mem_delA {β : Type} {k : String} {l : List (String × β)}
    {p : String × β} (hp : p ∈ delA k l) : p ∈ l := by
  induction l with
  | nil => simp [delA] at hp
  | cons head rest ih =>
    obtain ⟨k', v'⟩ := head
    by_cases h : k = k'
    · simp [delA, h] at hp
      exact List.mem_cons_of_mem _ hp
    · simp [delA, h] at hp
      rcases hp with hp | hp
      · exact by simp [hp]
      · exact List.mem_cons_of_mem _ (ih hp)

theorem getA_eq_none_iff {β : Type} (k : String) (l : List (String × β)) :
    getA k l = none ↔ k ∉ l.map Prod.fst := by
  induction l with
  | nil => simp [getA]
  | cons head rest ih =>
    obtain ⟨k', v'⟩ := head
    by_cases h : k = k' <;> simp [getA, h, ih]

theorem getA_mem {β : Type} {k : String} {v : β} {l : List (String × β)}
    (h : getA k l = some v) : (k, v) ∈ l := by
  induction l with
  | nil => simp [getA] at h
  | cons head rest ih =>
    obtain ⟨k', v'⟩ := head
    by_cases hk : k = k'
    · simp [getA, hk] at h
      simp [hk, h]
    · simp [getA, hk] at h
      exact List.mem_cons_of_mem _ (ih h)

theorem getA_delA_of_nodup {β : Type} {k : String} {l : List (String × β)}
    (h : (l.map Prod.fst).Nodup) : getA k (delA k l) = none := by
  induction l with
  | nil => simp [delA, getA]
  | cons head rest ih =>
    obtain ⟨k', v'⟩ := head
    simp only [List.map_cons, List.nodup_cons] at h
    by_cases hk : k = k'
    · subst hk
      simp only [delA, if_pos rfl]
      exact (getA_eq_none_iff _ _).mpr h.1
    · simp [delA, getA, hk, ih h.2]

/-! ## Connection registry (`app/consumers.py`, `ConnectionManager`) -/

/-- A live websocket handle, identified opaquely. -/
abbrev Conn := Nat

/-- `ConnectionManager.active_connections`: a dict from user id to a dict from
scope (an order id or the sentinel `"all"`) to the list of connections. -/
abbrev Registry := List (String × List (String × List Conn))

/-- The scope key used by `connect`/`disconnect`: the given order id, or
`"all"` when none is given. -/
def scopeKey : Option String → String
  | some oid => oid
  | none => "all"

/-- Inner part of `ConnectionManager.connect`: ensure the scope list exists,
then append the websocket to it. -/
def addToScopes (key : String) (ws : Conn) (scopes : List (String × List Conn)) :
    List (String × List Conn) :=
  match getA key scopes with
  | some l => setA key (l ++ [ws]) scopes
  | none => scopes ++ [(key, [ws])]

/-- `ConnectionManager.connect(websocket, user_id, order_id=None)`. -/
def connect (ws : Conn) (user_id : String) (order_id : Option String)
    (R : Registry) : Registry :=
  match getA user_id R with
  | some scopes => setA user_id (addToScopes (scopeKey order_id) ws scopes) R
  | none => R ++ [(user_id, addToScopes (scopeKey order_id) ws [])]

/-- Python `list.remove`: drop the first occurrence; `none` models the
`ValueError` raised when the element is absent. -/
def removeFirst (ws : Conn) : List Conn → Option (List Conn)
  | [] => none
  | c :: rest => if c = ws then some rest else (removeFirst ws rest).map (c :: ·)

/-- The `elif "all" in ...` branch of `ConnectionManager.disconnect`: remove
the websocket from the `"all"` scope, pruning the scope if it empties. -/
def disconnectAll (ws : Conn) (scopes : List (String × List Conn)) :
    Except Unit (List (String × List Conn)) :=
  match getA "all" scopes with
  | some l =>
    match removeFirst ws l with
    | none => Except.error ()
    | some l' => Except.ok (if l' = [] then delA "all" scopes else setA "all" l' scopes)
  | none => Except.ok scopes

/-- The scope-level body of `ConnectionManager.disconnect`: when an order id is
given and present, remove from that scope; otherwise fall through to the
`"all"` scope. -/
def disconnectScopes (ws : Conn) (order_id : Option String)
    (scopes : List (String × List Conn)) : Except Unit (List (String × List Conn)) :=
  match order_id with
  | some oid =>
    match getA oid scopes with
    | some l =>
      match removeFirst ws l with
      | none => Except.error ()
      | some l' => Except.ok (if l' = [] then delA oid scopes else setA oid l' scopes)
    | none => disconnectAll ws scopes
  | none => disconnectAll ws scopes

/-- `ConnectionManager.disconnect(websocket, user_id, order_id=None)`.  The
error value models the `ValueError` from `list.remove` on an absent element;
it is raised before any mutation, so on error the registry is unchanged. -/
def disconnect (ws : Conn) (user_id : String) (order_id : Option String)
    (R : Registry) : Except Unit Registry :=
  match getA user_id R with
  | none => Except.ok R
  | some scopes =>
    match disconnectScopes ws order_id scopes with
    | Except.error e => Except.error e
    | Except.ok scopes' =>
      Except.ok (if scopes' = [] then delA user_id R else setA user_id scopes' R)

/-- The registry after a `disconnect` call: unchanged when the call raised. -/
def disconnectState (ws : Conn) (user_id : String) (order_id : Option String)
    (R : Registry) : Registry :=
  match disconnect ws user_id order_id R with
  | Except.ok R' => R'
  | Except.error _ => R

/-- Whether a `disconnect` call completed without raising. -/
def disconnectOk (ws : Conn) (user_id : String) (order_id : Option String)
    (R : Registry) : Bool :=
  match disconnect ws user_id order_id R with
  | Except.ok _ => true
  | Except.error _ => false

/-- `ConnectionManager.send_order_update(user_id, order_id, message)`:
the list of connections the message is sent to, in send order (the
order-scoped set, then the `"all"`-scoped set). -/
def send_order_update (user_id order_id : String) (R : Registry) : List Conn :=
  match getA user_id R with
  | none => []
  | some scopes => ((getA order_id scopes).getD []) ++ ((getA "all" scopes).getD [])

/-- `ConnectionManager.broadcast_to_restaurant(restaurant_id, message)`. -/
def broadcast_to_restaurant (restaurant_id : String) (R : Registry) : List Conn :=
  match getA restaurant_id R with
  | none => []
  | some scopes => (getA "all" scopes).getD []

/-- `ConnectionManager.broadcast_to_delivery_agents(message)`: iterate every
registered user, look its role up in the user store (`get_user_by_id`), and
send to the `"all"` scope of each delivery agent.  `roleOf` is the user-store
lookup collaborator. -/
def broadcast_to_delivery_agents (roleOf : String → Option UserRole) :
    Registry → List Conn
  | [] => []
  | (u, scopes) :: rest =>
    (if roleOf u = some UserRole.DELIVERY_AGENT then (getA "all" scopes).getD [] else [])
      ++ broadcast_to_delivery_agents roleOf rest

/-- The connections registered under one scope of one user (empty when the
user or scope is absent). -/
def scopeConns (R : Registry) (user_id scope : String) : List Conn :=
  match getA user_id R with
  | none => []
  | some scopes => (getA scope scopes).getD []

theorem send_order_update_eq (U O : String) (R : Registry) :
    send_order_update U O R = scopeConns R U O ++ scopeConns R U "all" := by
  unfold send_order_update scopeConns
  cases h : getA U R <;> simp

/-- A registry event: a client connecting or disconnecting. -/
inductive RegOp
  | conn (ws : Conn) (user_id : String) (order_id : Option String)
  | disc (ws : Conn) (user_id : String) (order_id : Option String)

/-- Apply one lifecycle event to the registry (a raising `disconnect` leaves
the registry as it was). -/
def applyOp (R : Registry) : RegOp → Registry
  | RegOp.conn ws u o => connect ws u o R
  | RegOp.disc ws u o => disconnectState ws u o R

/-- The registry produced from the empty initial state by a sequence of
connect/disconnect events. -/
def runOps (ops : List RegOp) : Registry := ops.foldl applyOp []

/-- Well-formedness of the registry: no user entry with no scopes, and no
scope entry with an empty connection list. -/
def wfRegistry (R : Registry) : Prop :=
  ∀ p ∈ R, p.2 ≠ [] ∧ ∀ q ∈ p.2, q.2 ≠ []

theorem removeFirst_count (ws : Conn) (l l' : List Conn)
    (h : removeFirst ws l = some l') : l'.count ws + 1 = l.count ws := by
  induction l generalizing l' with
  | nil => simp [removeFirst] at h
  | cons c rest ih =>
    by_cases hc : c = ws
    · subst hc
      simp [removeFirst] at h
      subst h
      simp [List.count_cons]
    · cases hrec : removeFirst ws rest with
      | none => simp [removeFirst, hc, hrec] at h
      | some r =>
        simp [removeFirst, hc, hrec] at h
        subst h
        have hc' : ¬ (ws = c) := fun hx => hc hx.symm
        simp [List.count_cons, hc']
        exact ih r hrec

theorem removeFirst_of_mem (ws : Conn) (l : List Conn) (h : ws ∈ l) :
    ∃ l', removeFirst ws l = some l' := by
  induction l with
  | nil => simp at h
  | cons c rest ih =>
    by_cases hc : c = ws
    · exact ⟨rest, by simp [removeFirst, hc]⟩
    · have hm : ws ∈ rest := by
        rcases List.mem_cons.mp h with h1 | h1
        · exact absurd h1.symm hc
        · exact h1
      obtain ⟨r, hr⟩ := ih hm
      exact ⟨c :: r, by simp [removeFirst, hc, hr]⟩

theorem addToScopes_ne_nil (key : String) (ws : Conn)
    (scopes : List (String × List Conn)) : addToScopes key ws scopes ≠ [] := by
  unfold addToScopes
  cases hA : getA key scopes
  · simp
  · exact setA_ne_nil _ _ _

theorem addToScopes_wf {key : String} {ws : Conn} {scopes : List (String × List Conn)}
    (h : ∀ q ∈ scopes, q.2 ≠ ([] : List Conn)) :
    ∀ q ∈ addToScopes key ws scopes, q.2 ≠ [] := by
  intro q hq
  cases hA : getA key scopes with
  | none =>
    simp only [addToScopes, hA] at hq
    rcases List.mem_append.mp hq with h1 | h1
    · exact h q h1
    · simp at h1
      subst h1
      simp
  | some l =>
    simp only [addToScopes, hA] at hq
    rcases mem_setA hq with h1 | h1
    · subst h1
      simp
    · exact h q h1

theorem connect_wf {R : Registry} (h : wfRegistry R) (ws : Conn) (u : String)
    (o : Option String) : wfRegistry (connect ws u o R) := by
  intro p hp
  cases hA : getA u R with
  | some scopes =>
    simp only [connect, hA] at hp
    rcases mem_setA hp with h1 | h1
    · subst h1
      exact ⟨addToScopes_ne_nil _ _ _, addToScopes_wf (h _ (getA_mem hA)).2⟩
    · exact h p h1
  | none =>
    simp only [connect, hA] at hp
    rcases List.mem_append.mp hp with h1 | h1
    · exact h p h1
    · simp at h1
      subst h1
      constructor
      · show addToScopes (scopeKey o) ws [] ≠ []
        exact addToScopes_ne_nil _ _ _
      · show ∀ q ∈ addToScopes (scopeKey o) ws [], q.2 ≠ []
        exact addToScopes_wf (fun q hq => absurd hq (List.not_mem_nil q))

theorem disconnectAll_wf {ws : Conn} {scopes scopes' : List (String × List Conn)}
    (h : ∀ q ∈ scopes, q.2 ≠ ([] : List Conn))
    (hok : disconnectAll ws scopes = Except.ok scopes') :
    ∀ q ∈ scopes', q.2 ≠ [] := by
  cases hA : getA "all" scopes with
  | none =>
    simp [disconnectAll, hA] at hok
    subst hok
    exact h
  | some l =>
    cases hR : removeFirst ws l with
    | none => simp [disconnectAll, hA, hR] at hok
    | some l' =>
      simp [disconnectAll, hA, hR] at hok
      by_cases hl : l' = []
      · rw [if_pos hl] at hok
        subst hok
        intro q hq
        exact h q (mem_delA hq)
      · rw [if_neg hl] at hok
        subst hok
        intro q hq
        rcases mem_setA hq with h1 | h1
        · subst h1
          exact hl
        · exact h q h1

theorem disconnectScopes_wf {ws : Conn} {o : Option String}
    {scopes scopes' : List (String × List Conn)}
    (h : ∀ q ∈ scopes, q.2 ≠ ([] : List Conn))
    (hok : disconnectScopes ws o scopes = Except.ok scopes') :
    ∀ q ∈ scopes', q.2 ≠ [] := by
  cases o with
  | none =>
    simp only [disconnectScopes] at hok
    exact disconnectAll_wf h hok
  | some oid =>
    cases hA : getA oid scopes with
    | none =>
      simp only [disconnectScopes, hA] at hok
      exact disconnectAll_wf h hok
    | some l =>
      cases hR : removeFirst ws l with
      | none => simp [disconnectScopes, hA, hR] at hok
      | some l' =>
        simp [disconnectScopes, hA, hR] at hok
        by_cases hl : l' = []
        · rw [if_pos hl] at hok
          subst hok
          intro q hq
          exact h q (mem_delA hq)
        · rw [if_neg hl] at hok
          subst hok
          intro q hq
          rcases mem_setA hq with h1 | h1
          · subst h1
            exact hl
          · exact h q h1

theorem disconnect_wf {R R' : Registry} {ws : Conn} {u : String} {o : Option String}
    (h : wfRegistry R) (hok : disconnect ws u o R = Except.ok R') : wfRegistry R' := by
  cases hA : getA u R with
  | none =>
    simp [disconnect, hA] at hok
    subst hok
    exact h
  | some scopes =>
    cases hS : disconnectScopes ws o scopes with
    | error e => simp [disconnect, hA, hS] at hok
    | ok scopes' =>
      simp [disconnect, hA, hS] at hok
      have hw : ∀ q ∈ scopes', q.2 ≠ ([] : List Conn) :=
        disconnectScopes_wf (h _ (getA_mem hA)).2 hS
      by_cases hsn : scopes' = []
      · rw [if_pos hsn] at hok
        subst hok
        intro p hp
        exact h p (mem_delA hp)
      · rw [if_neg hsn] at hok
        subst hok
        intro p hp
        rcases mem_setA hp with h1 | h1
        · subst h1
          exact ⟨hsn, hw⟩
        · exact h p h1

theorem applyOp_wf {R : Registry} (h : wfRegistry R) (op : RegOp) :
    wfRegistry (applyOp R op) := by
  cases op with
  | conn ws u o =>
    simp only [applyOp]
    exact connect_wf h ws u o
  | disc ws u o =>
    simp only [applyOp]
    unfold disconnectState
    cases hd : disconnect ws u o R with
    | ok R' => exact disconnect_wf h hd
    | error e => exact h

theorem foldl_applyOp_wf (ops : List RegOp) :
    ∀ R : Registry, wfRegistry R → wfRegistry (ops.foldl applyOp R) := by
  induction ops with
  | nil => exact fun R h => h
  | cons op rest ih => exact fun R h => ih _ (applyOp_wf h op)

/-! ## Order lifecycle (`update_order_status` in `app/main.py`) -/

/-- A notification side effect emitted by a handler: a `send_order_update`
call, a `broadcast_to_restaurant` call, or a `broadcast_to_delivery_agents`
call. -/
inductive Note
  | toUser (user_id : String) (order_id : String)
  | toRestaurantAll (restaurant_id : String)
  | toAgents
deriving DecidableEq, Repr

/-- The `authorized` flag computed by `update_order_status` (`main.py`
lines 296-309): admins always; restaurants owning the order for targets
`accepted`/`assigned_to_delivery`; delivery agents for targets
`picked_up`/`delivered` when they are the assigned agent or the order's
status is `assigned_to_delivery`. -/
def authorizedFor (role : UserRole) (uid : String) (order : OrderSt)
    (upd : OrderUpdate) : Bool :=
  match role with
  | UserRole.ADMIN => true
  | UserRole.RESTAURANT =>
      decide (order.restaurant_id = uid) &&
      (decide (upd.status = OrderStatus.ACCEPTED) ||
       decide (upd.status = OrderStatus.ASSIGNED))
  | UserRole.DELIVERY_AGENT =>
      (decide (order.delivery_agent_id = some uid) ||
       decide (order.status = OrderStatus.ASSIGNED)) &&
      (decide (upd.status = OrderStatus.PICKED_UP) ||
       decide (upd.status = OrderStatus.DELIVERED))
  | UserRole.CUSTOMER => false

/-- `PUT /orders/{order_id}` (`update_order_status` in `main.py`), acting on
the order row it looked up.  An error models the `HTTPException` raised
before `db.commit()`, so on error the stored order is unchanged.  The
returned list records the notification calls made after the commit. -/
def update_order_status (role : UserRole) (uid : String) (upd : OrderUpdate)
    (order : OrderSt) : Except ApiError (OrderSt × List Note) :=
  let updEff : OrderUpdate :=
    if role = UserRole.DELIVERY_AGENT
        ∧ (order.delivery_agent_id = some uid ∨ order.status = OrderStatus.ASSIGNED)
        ∧ (upd.status = OrderStatus.PICKED_UP ∨ upd.status = OrderStatus.DELIVERED)
        ∧ upd.status = OrderStatus.PICKED_UP ∧ order.delivery_agent_id = none
    then { upd with delivery_agent_id := some uid } else upd
  if authorizedFor role uid order upd then
    if upd.status ∈ validTransitions order.status then
      let order' : OrderSt := { order with
        status := upd.status,
        delivery_agent_id := match updEff.delivery_agent_id with
          | some d => some d
          | none => order.delivery_agent_id }
      let notes : List Note :=
        [Note.toUser order.customer_id order.id, Note.toUser order.restaurant_id order.id]
        ++ (match order'.delivery_agent_id with
            | some d => [Note.toUser d order.id]
            | none => [])
        ++ (if order'.status = OrderStatus.ASSIGNED ∧ order'.delivery_agent_id = none
            then [Note.toAgents] else [])
      Except.ok (order', notes)
    else Except.error (ApiError.invalidTransition order.status upd.status)
  else Except.error (ApiError.unauthorized "update order status")

/-- The stored status after a `PUT /orders/{order_id}` request: the old one
when the handler raised (nothing was committed), the new one otherwise. -/
def statusAfter (role : UserRole) (uid : String) (upd : OrderUpdate)
    (order : OrderSt) : OrderStatus :=
  match update_order_status role uid upd order with
  | Except.ok (o', _) => o'.status
  | Except.error _ => order.status

/-- The stored delivery agent after a `PUT /orders/{order_id}` request. -/
def agentAfter (role : UserRole) (uid : String) (upd : OrderUpdate)
    (order : OrderSt) : Option String :=
  match update_order_status role uid upd order with
  | Except.ok (o', _) => o'.delivery_agent_id
  | Except.error _ => order.delivery_agent_id

/-- Whether a `PUT /orders/{order_id}` request succeeded. -/
def updateOk (role : UserRole) (uid : String) (upd : OrderUpdate)
    (order : OrderSt) : Bool :=
  match update_order_status role uid upd order with
  | Except.ok _ => true
  | Except.error _ => false

/-! ## Order creation, menu update and payments
(`create_order`, `update_menu_item`, `create_payment` in `app/main.py`;
`calculate_order_total`, `process_payment` in `app/utils.py`) -/

/-- `calculate_order_total(db, items)` from `utils.py`: sum the current menu
price times quantity over the line items, silently skipping items whose menu
row is missing. -/
def calculate_order_total (db : Db) (items : List OrderItemDict) : ℚ :=
  items.foldl (fun total item =>
    match getA item.item_id db.menu_items with
    | some m => total + m.price * (item.quantity : ℚ)
    | none => total) 0

/-- The current menu price of an item id, `0` when absent. -/
def priceOf (db : Db) (item_id : String) : ℚ :=
  ((getA item_id db.menu_items).map (fun m => m.price)).getD 0

/-- The item-validation loop of `create_order`: every line item must exist
and belong to the selected restaurant. -/
def validateItems (db : Db) (restaurant_id : String) :
    List OrderItemDict → Except ApiError Unit
  | [] => Except.ok ()
  | item :: rest =>
    match getA item.item_id db.menu_items with
    | none => Except.error (ApiError.notFound "Menu item not found")
    | some m =>
      if m.restaurant_id ≠ restaurant_id then
        Except.error (ApiError.badRequest "Menu item does not belong to the selected restaurant")
      else validateItems db restaurant_id rest

/-- `process_payment(db, order_id, total_amount)` from `utils.py`: the mock
settlement, an 80/20 split of the total, appended to the payments table.
`payment_id` stands for the generated uuid. -/
def process_payment (payment_id order_id : String) (total_amount : ℚ) (db : Db) :
    PaymentRec × Db :=
  let payment : PaymentRec := {
    id := payment_id,
    order_id := order_id,
    amount := total_amount,
    restaurant_share := total_amount * (0.8 : ℚ),
    delivery_fee := total_amount * (0.2 : ℚ),
    status := "completed" }
  (payment, { db with payments := db.payments ++ [payment] })

/-- `POST /orders/` (`create_order` in `main.py`): validate the restaurant
and the line items, snapshot the total from current prices, insert the order
in `placed` state, then run the mock settlement.  `order_id` and
`payment_id` stand for the generated uuids. -/
def create_order (role : UserRole) (uid : String) (restaurant_id : String)
    (items : List OrderItemDict) (order_id payment_id : String) (db : Db) :
    Except ApiError (OrderSt × Db) :=
  if role ≠ UserRole.CUSTOMER ∧ role ≠ UserRole.ADMIN then
    Except.error (ApiError.unauthorized "Operation requires customer role")
  else if getA restaurant_id db.users ≠ some UserRole.RESTAURANT then
    Except.error (ApiError.notFound "Restaurant not found")
  else
    match validateItems db restaurant_id items with
    | Except.error e => Except.error e
    | Except.ok _ =>
      let total_amount := calculate_order_total db items
      let order : OrderSt := {
        id := order_id,
        customer_id := uid,
        restaurant_id := restaurant_id,
        delivery_agent_id := none,
        items := items,
        total_amount := total_amount,
        status := OrderStatus.PLACED }
      let db1 : Db := { db with orders := db.orders ++ [(order_id, order)] }
      Except.ok (order, (process_payment payment_id order_id total_amount db1).2)

/-- `PUT /menu-items/{item_id}` (`update_menu_item` in `main.py`). -/
def update_menu_item (role : UserRole) (uid : String) (item_id : String)
    (body : MenuItemBase) (db : Db) : Except ApiError Db :=
  if role ≠ UserRole.RESTAURANT ∧ role ≠ UserRole.ADMIN then
    Except.error (ApiError.unauthorized "Operation requires restaurant role")
  else
    match getA item_id db.menu_items with
    | none => Except.error (ApiError.notFound "Menu item not found")
    | some m =>
      if m.restaurant_id ≠ uid ∧ role ≠ UserRole.ADMIN then
        Except.error (ApiError.unauthorized "Not authorized to update this menu item")
      else
        Except.ok { db with menu_items := setA item_id { m with
          name := body.name,
          description := body.description,
          price := body.price,
          is_available := body.is_available } db.menu_items }

/-- `query(PaymentModel).filter(PaymentModel.order_id == order_id).first()`. -/
def findPaymentByOrder (payments : List PaymentRec) (order_id : String) :
    Option PaymentRec :=
  payments.find? (fun p => p.order_id == order_id)

/-- `POST /payments/` (`create_payment` in `main.py`): if a payment already
exists for the order it is returned unchanged without touching the database,
otherwise the mock settlement runs. -/
def create_payment (role : UserRole) (uid : String) (order_id payment_id : String)
    (db : Db) : Except ApiError (PaymentRec × Db) :=
  if role ≠ UserRole.CUSTOMER ∧ role ≠ UserRole.ADMIN then
    Except.error (ApiError.unauthorized "Operation requires customer role")
  else
    match getA order_id db.orders with
    | none => Except.error (ApiError.notFound "Order not found")
    | some order =>
      if order.customer_id ≠ uid then
        Except.error (ApiError.unauthorized "Not authorized to process payment for this order")
      else
        match findPaymentByOrder db.payments order_id with
        | some existing => Except.ok (existing, db)
        | none => Except.ok (process_payment payment_id order_id order.total_amount db)

/-! ## Claim theorems -/

deriving instance DecidableEq for Except

instance (R : Registry) : Decidable (wfRegistry R) := by
  unfold wfRegistry
  infer_instance

/-- Every edge of the `valid_transitions` adjacency list is one forward step
along the chain. -/
theorem chain_step : ∀ s t : OrderStatus,
    t ∈ validTransitions s → statusIdx t = statusIdx s + 1 := by decide

/-- C1: a status update is accepted only along the fixed chain
`placed → accepted → assigned_to_delivery → picked_up → delivered`; a
requested transition outside the adjacency list (for an authorized caller)
fails with an `InvalidTransition` error naming the from/to pair; and the
stored status either stays unchanged or advances one chain step, so a
reachable order's status only ever moves forward. -/
theorem c1_status_forward_chain (role : UserRole) (uid : String)
    (upd : OrderUpdate) (order : OrderSt) :
    (∀ o' ns, update_order_status role uid upd order = Except.ok (o', ns) →
      o'.status = upd.status ∧ upd.status ∈ validTransitions order.status ∧
      statusIdx o'.status = statusIdx order.status + 1)
    ∧ (authorizedFor role uid order upd = true →
        upd.status ∉ validTransitions order.status →
        update_order_status role uid upd order =
          Except.error (ApiError.invalidTransition order.status upd.status))
    ∧ (statusAfter role uid upd order = order.status ∨
        statusIdx (statusAfter role uid upd order) = statusIdx order.status + 1) := by
  have key : ∀ o' ns, update_order_status role uid upd order = Except.ok (o', ns) →
      o'.status = upd.status ∧ upd.status ∈ validTransitions order.status ∧
      statusIdx o'.status = statusIdx order.status + 1 := by
    intro o' ns h
    simp only [update_order_status] at h
    split at h
    · split at h
      · simp only [Except.ok.injEq, Prod.mk.injEq] at h
        obtain ⟨h1, h2⟩ := h
        have hst : o'.status = upd.status := by
          rw [← h1]
        refine ⟨hst, by assumption, ?_⟩
        rw [hst]
        exact chain_step _ _ (by assumption)
      · exact absurd h (by simp)
    · exact absurd h (by simp)
  refine ⟨key, ?_, ?_⟩
  · intro ha ht
    simp [update_order_status, ha, ht]
  · unfold statusAfter
    cases h : update_order_status role uid upd order with
    | error e => exact Or.inl rfl
    | ok res =>
      obtain ⟨o', ns⟩ := res
      exact Or.inr (key o' ns h).2.2

/-- A concrete order used to instantiate hypothesis-bearing theorems. -/
def ord1 : OrderSt := {
  id := "o1", customer_id := "C", restaurant_id := "R",
  delivery_agent_id := none, items := [], total_amount := 0,
  status := OrderStatus.PLACED }

theorem c1_status_forward_chain_witness :
    update_order_status UserRole.ADMIN "A" { status := OrderStatus.PLACED } ord1 =
      Except.error (ApiError.invalidTransition OrderStatus.PLACED OrderStatus.PLACED) :=
  (c1_status_forward_chain UserRole.ADMIN "A"
    { status := OrderStatus.PLACED } ord1).2.1 rfl (by decide)

/-- The authorization condition the claim states for delivery agents: target
`picked_up`/`delivered`, and the requester is the assigned agent or the order
is in `assigned_to_delivery` AND unassigned.  Stated from the claim's words,
to be compared with `authorizedFor` from the source. -/
def specDeliveryAuth (uid : String) (order : OrderSt) (upd : OrderUpdate) : Prop :=
  (upd.status = OrderStatus.PICKED_UP ∨ upd.status = OrderStatus.DELIVERED) ∧
  (order.delivery_agent_id = some uid ∨
    (order.status = OrderStatus.ASSIGNED ∧ order.delivery_agent_id = none))

instance (uid : String) (order : OrderSt) (upd : OrderUpdate) :
    Decidable (specDeliveryAuth uid order upd) := by
  unfold specDeliveryAuth
  infer_instance

/-- An order in `assigned_to_delivery` that is already assigned to agent
`agentX`. -/
def ordC2 : OrderSt := { ord1 with
  status := OrderStatus.ASSIGNED, delivery_agent_id := some "agentX" }

/-- C2 counterexample: on an order in `assigned_to_delivery` already assigned
to `agentX`, a different agent `agentY` requesting `picked_up` is authorized
by the code (and the update succeeds), though the claim's condition — already
the assigned agent, or assigned_to_delivery AND unassigned — is false: the
code never checks that the order is unassigned. -/
theorem c2_delivery_auth_counterexample :
    authorizedFor UserRole.DELIVERY_AGENT "agentY" ordC2
      { status := OrderStatus.PICKED_UP } = true
    ∧ updateOk UserRole.DELIVERY_AGENT "agentY"
      { status := OrderStatus.PICKED_UP } ordC2 = true
    ∧ ¬ specDeliveryAuth "agentY" ordC2 { status := OrderStatus.PICKED_UP } := by
  refine ⟨by decide, by decide, by decide⟩

/-- C2 (amended): a delivery agent's status update is authorized exactly when
the target is `picked_up` or `delivered` and the agent is the assigned agent
or the order is currently in `assigned_to_delivery` (whether or not an agent
is already recorded); and when an agent moves an unassigned order in
`assigned_to_delivery` to `picked_up`, the update succeeds and records that
agent as the order's delivery agent in the same update. -/
theorem c2_delivery_auth_amended (uid : String) (order : OrderSt)
    (upd : OrderUpdate) :
    (authorizedFor UserRole.DELIVERY_AGENT uid order upd = true ↔
      ((upd.status = OrderStatus.PICKED_UP ∨ upd.status = OrderStatus.DELIVERED) ∧
       (order.delivery_agent_id = some uid ∨ order.status = OrderStatus.ASSIGNED)))
    ∧ (order.status = OrderStatus.ASSIGNED → order.delivery_agent_id = none →
        upd.status = OrderStatus.PICKED_UP →
        updateOk UserRole.DELIVERY_AGENT uid upd order = true ∧
        agentAfter UserRole.DELIVERY_AGENT uid upd order = some uid ∧
        statusAfter UserRole.DELIVERY_AGENT uid upd order = OrderStatus.PICKED_UP) := by
  constructor
  · simp only [authorizedFor, Bool.and_eq_true, Bool.or_eq_true, decide_eq_true_eq]
    tauto
  · intro hs hd hu
    refine ⟨?_, ?_, ?_⟩ <;>
      simp [updateOk, agentAfter, statusAfter, update_order_status, authorizedFor,
        validTransitions, hs, hd, hu]

/-- An unassigned order in `assigned_to_delivery`, ready to be claimed. -/
def ordC2u : OrderSt := { ord1 with status := OrderStatus.ASSIGNED }

theorem c2_delivery_auth_amended_witness :
    updateOk UserRole.DELIVERY_AGENT "agentY" { status := OrderStatus.PICKED_UP }
      ordC2u = true ∧
    agentAfter UserRole.DELIVERY_AGENT "agentY" { status := OrderStatus.PICKED_UP }
      ordC2u = some "agentY" ∧
    statusAfter UserRole.DELIVERY_AGENT "agentY" { status := OrderStatus.PICKED_UP }
      ordC2u = OrderStatus.PICKED_UP :=
  (c2_delivery_auth_amended "agentY" ordC2u { status := OrderStatus.PICKED_UP }).2
    rfl rfl rfl

/-- C9: a successful status update broadcasts an order-available event to
delivery agents exactly when the new status is `assigned_to_delivery` with no
agent attached; and the broadcast delivers to a connection exactly when some
registered user whose looked-up role is `delivery_agent` has it in their
`"all"` scope — users of any other role contribute nothing. -/
theorem c9_broadcast_to_agents :
    (∀ role uid upd order o' ns,
      update_order_status role uid upd order = Except.ok (o', ns) →
      (Note.toAgents ∈ ns ↔
        (o'.status = OrderStatus.ASSIGNED ∧ o'.delivery_agent_id = none)))
    ∧ (∀ (roleOf : String → Option UserRole) (R : Registry) (c : Conn),
        c ∈ broadcast_to_delivery_agents roleOf R ↔
        ∃ u scopes, (u, scopes) ∈ R ∧ roleOf u = some UserRole.DELIVERY_AGENT ∧
          c ∈ (getA "all" scopes).getD []) := by
  constructor
  · intro role uid upd order o' ns h
    simp only [update_order_status] at h
    split at h
    · split at h
      · simp only [Except.ok.injEq, Prod.mk.injEq] at h
        obtain ⟨h1, h2⟩ := h
        subst h1
        subst h2
        cases hA : (match
            (if role = UserRole.DELIVERY_AGENT
                ∧ (order.delivery_agent_id = some uid ∨ order.status = OrderStatus.ASSIGNED)
                ∧ (upd.status = OrderStatus.PICKED_UP ∨ upd.status = OrderStatus.DELIVERED)
                ∧ upd.status = OrderStatus.PICKED_UP ∧ order.delivery_agent_id = none
              then { upd with delivery_agent_id := some uid } else upd).delivery_agent_id with
          | some d => some d
          | none => order.delivery_agent_id) with
        | some d => simp [hA]
        | none =>
          simp only [hA]
          by_cases hst : upd.status = OrderStatus.ASSIGNED <;> simp [hst]
      · simp at h
    · simp at h
  · intro roleOf R c
    induction R with
    | nil => simp [broadcast_to_delivery_agents]
    | cons p rest ih =>
      obtain ⟨u, scopes⟩ := p
      simp only [broadcast_to_delivery_agents, List.mem_append, ih]
      constructor
      · intro h
        rcases h with h | h
        · by_cases hrole : roleOf u = some UserRole.DELIVERY_AGENT
          · rw [if_pos hrole] at h
            exact ⟨u, scopes, List.mem_cons_self _ _, hrole, h⟩
          · rw [if_neg hrole] at h
            exact absurd h (List.not_mem_nil c)
        · obtain ⟨u', s', hmem, hr, hc⟩ := h
          exact ⟨u', s', List.mem_cons_of_mem _ hmem, hr, hc⟩
      · intro h
        obtain ⟨u', s', hmem, hr, hc⟩ := h
        rcases List.mem_cons.mp hmem with heq | hmem'
        · have hu : u' = u := congrArg Prod.fst heq
          have hs : s' = scopes := congrArg Prod.snd heq
          subst hu
          subst hs
          exact Or.inl (by rw [if_pos hr]; exact hc)
        · exact Or.inr ⟨u', s', hmem', hr, hc⟩

theorem c9_broadcast_to_agents_witness :
    Note.toAgents ∈
      ([Note.toUser "C" "o1", Note.toUser "R" "o1", Note.toAgents] : List Note) :=
  ((c9_broadcast_to_agents.1 UserRole.RESTAURANT "R"
      { status := OrderStatus.ASSIGNED } { ord1 with status := OrderStatus.ACCEPTED }
      { ord1 with status := OrderStatus.ASSIGNED }
      [Note.toUser "C" "o1", Note.toUser "R" "o1", Note.toAgents]
      (by decide)).mpr (by decide))

/-- C7: with connection `C` registered under `(user U, order O)`,
`send_order_update U O` delivers to `C` exactly once (when `C` is not also in
`U`'s `"all"` scope); an event for a different order is not delivered to `C`
unless `C` is in the `"all"` scope; and in general each delivery fan-out is
exactly the order-scoped set plus the `"all"`-scoped set. -/
theorem c7_notify_user_delivery (R : Registry) (U O : String) (C : Conn) :
    ((scopeConns R U O).count C = 1 → C ∉ scopeConns R U "all" →
      (send_order_update U O R).count C = 1)
    ∧ (∀ O2, C ∉ scopeConns R U O2 → C ∉ scopeConns R U "all" →
        C ∉ send_order_update U O2 R)
    ∧ ((send_order_update U O R).count C =
        (scopeConns R U O).count C + (scopeConns R U "all").count C) := by
  have hadd : ∀ O', (send_order_update U O' R).count C =
      (scopeConns R U O').count C + (scopeConns R U "all").count C := by
    intro O'
    rw [send_order_update_eq]
    exact List.count_append _ _ _
  refine ⟨?_, ?_, hadd O⟩
  · intro h1 h2
    rw [hadd O, h1, List.count_eq_zero.mpr h2]
  · intro O2 h1 h2
    rw [send_order_update_eq, List.mem_append]
    rintro (h | h)
    · exact h1 h
    · exact h2 h

/-- A concrete registry: user `U` has connection `5` on order `O` and
connection `7` on `"all"`. -/
def reg7 : Registry := [("U", [("O", [5]), ("all", [7])])]

theorem c7_notify_user_delivery_witness :
    (send_order_update "U" "O" reg7).count 5 = 1 ∧
    5 ∉ send_order_update "U" "O2" reg7 :=
  ⟨(c7_notify_user_delivery reg7 "U" "O" 5).1 (by decide) (by decide),
   (c7_notify_user_delivery reg7 "U" "O" 5).2.1 "O2" (by decide) (by decide)⟩

/-- C8: every registry reachable from the empty state by connect/disconnect
events contains no empty scope sets and no user entries with no scopes; and
`disconnect` preserves this well-formedness on any well-formed registry
(empty scope sets are pruned, and a user whose last scope is pruned is
removed). -/
theorem c8_disconnect_prunes :
    (∀ ops : List RegOp, wfRegistry (runOps ops))
    ∧ (∀ (R R' : Registry) (ws : Conn) (u : String) (o : Option String),
        wfRegistry R → disconnect ws u o R = Except.ok R' → wfRegistry R') := by
  constructor
  · intro ops
    exact foldl_applyOp_wf ops [] (fun p hp => absurd hp (List.not_mem_nil p))
  · intro R R' ws u o h hok
    exact disconnect_wf h hok

theorem c8_disconnect_prunes_witness :
    wfRegistry [("u", [("all", [2])])] :=
  c8_disconnect_prunes.2 [("u", [("all", [1, 2])])] [("u", [("all", [2])])]
    1 "u" none (by decide) (by decide)

/-- C10: when user `U` has no scope entry for order `O` but holds connection
`C` in their `"all"` scope, `disconnect(C, U, O)` does not raise and removes
one occurrence of `C` from the `"all"` scope (pruning empty entries), rather
than being a no-op: the order-scoped unregister falls through to the user's
global scope. -/
theorem c10_disconnect_fallthrough (R : Registry) (U O : String) (C : Conn)
    (scopes : List (String × List Conn)) (l : List Conn)
    (hN : (R.map Prod.fst).Nodup) (hsk : (scopes.map Prod.fst).Nodup)
    (hU : getA U R = some scopes) (hO : getA O scopes = none)
    (hall : getA "all" scopes = some l) (hC : C ∈ l) :
    disconnectOk C U (some O) R = true ∧
    (scopeConns (disconnectState C U (some O) R) U "all").count C + 1 =
      l.count C := by
  obtain ⟨l', hrem⟩ := removeFirst_of_mem C l hC
  have hcount := removeFirst_count C l l' hrem
  have hdisc : disconnect C U (some O) R =
      Except.ok (if (if l' = [] then delA "all" scopes else setA "all" l' scopes) = []
        then delA U R
        else setA U (if l' = [] then delA "all" scopes else setA "all" l' scopes) R) := by
    simp [disconnect, disconnectScopes, disconnectAll, hU, hO, hall, hrem]
  refine ⟨by simp [disconnectOk, hdisc], ?_⟩
  have hstate : disconnectState C U (some O) R =
      (if (if l' = [] then delA "all" scopes else setA "all" l' scopes) = []
        then delA U R
        else setA U (if l' = [] then delA "all" scopes else setA "all" l' scopes) R) := by
    simp [disconnectState, hdisc]
  rw [hstate]
  by_cases hl : l' = []
  · rw [if_pos hl]
    by_cases hs0 : delA "all" scopes = []
    · rw [if_pos hs0]
      have hnone : getA U (delA U R) = none := getA_delA_of_nodup hN
      simp only [scopeConns, hnone, List.count_nil]
      rw [← hcount, hl, List.count_nil]
    · rw [if_neg hs0]
      have hsome : getA U (setA U (delA "all" scopes) R) = some (delA "all" scopes) :=
        getA_setA_self _ _ _
      have hnone : getA "all" (delA "all" scopes) = none := getA_delA_of_nodup hsk
      simp only [scopeConns, hsome, hnone, Option.getD_none, List.count_nil]
      rw [← hcount, hl, List.count_nil]
  · rw [if_neg hl, if_neg (setA_ne_nil _ _ _)]
    have hsome : getA U (setA U (setA "all" l' scopes) R) = some (setA "all" l' scopes) :=
      getA_setA_self _ _ _
    have hsome2 : getA "all" (setA "all" l' scopes) = some l' := getA_setA_self _ _ _
    simp only [scopeConns, hsome, hsome2, Option.getD_some]
    exact hcount

/-- A registry where user `U` holds connection `3` only in the `"all"`
scope. -/
def reg10 : Registry := [("U", [("all", [3])])]

theorem c10_disconnect_fallthrough_witness :
    disconnectOk 3 "U" (some "O9") reg10 = true ∧
    (scopeConns (disconnectState 3 "U" (some "O9") reg10) "U" "all").count 3 + 1 =
      ([3] : List Conn).count 3 :=
  c10_disconnect_fallthrough reg10 "U" "O9" 3 [("all", [3])] [3]
    (by decide) (by decide) (by decide) (by decide) (by decide) (by decide)

theorem validateItems_ok {db : Db} {rid : String} {items : List OrderItemDict}
    (h : validateItems db rid items = Except.ok ()) :
    ∀ it ∈ items, ∃ m, getA it.item_id db.menu_items = some m ∧
      m.restaurant_id = rid := by
  induction items with
  | nil => simp
  | cons item rest ih =>
    cases hA : getA item.item_id db.menu_items with
    | none => simp [validateItems, hA] at h
    | some m =>
      simp only [validateItems, hA] at h
      split at h
      · simp at h
      · intro it hit
        rcases List.mem_cons.mp hit with heq | hmem
        · subst heq
          refine ⟨m, hA, ?_⟩
          by_contra hne
          exact absurd hne (by assumption)
        · exact ih h it hmem

theorem calc_total_foldl (db : Db) (items : List OrderItemDict) : ∀ (a : ℚ),
    items.foldl (fun total item =>
      match getA item.item_id db.menu_items with
      | some m => total + m.price * (item.quantity : ℚ)
      | none => total) a
    = a + (items.map (fun it => priceOf db it.item_id * (it.quantity : ℚ))).sum := by
  induction items with
  | nil => intro a; simp
  | cons it rest ih =>
    intro a
    rw [List.foldl_cons, List.map_cons, List.sum_cons]
    cases hA : getA it.item_id db.menu_items with
    | none => simp [ih, priceOf, hA]
    | some m => simp [ih, priceOf, hA, add_assoc]

theorem calculate_order_total_eq (db : Db) (items : List OrderItemDict) :
    calculate_order_total db items =
      (items.map (fun it => priceOf db it.item_id * (it.quantity : ℚ))).sum := by
  have h := calc_total_foldl db items 0
  simpa [calculate_order_total] using h

/-- C4: a successful order creation snapshots `total_amount` as the sum of
(current menu price × quantity) over the line items, all of which exist and
belong to the chosen restaurant; and a menu-item update never changes the
stored `total_amount` of any existing order. -/
theorem c4_total_creation_snapshot :
    (∀ role uid rid items oid pid db ord db',
      create_order role uid rid items oid pid db = Except.ok (ord, db') →
      ord.total_amount =
        (items.map (fun it => priceOf db it.item_id * (it.quantity : ℚ))).sum ∧
      ∀ it ∈ items, ∃ m, getA it.item_id db.menu_items = some m ∧
        m.restaurant_id = rid)
    ∧ (∀ role uid item_id body db db',
        update_menu_item role uid item_id body db = Except.ok db' →
        ∀ oid, (getA oid db'.orders).map (fun o => o.total_amount) =
          (getA oid db.orders).map (fun o => o.total_amount)) := by
  constructor
  · intro role uid rid items oid pid db ord db' h
    simp only [create_order] at h
    split at h
    · simp at h
    · split at h
      · simp at h
      · cases hv : validateItems db rid items with
        | error e => simp [hv] at h
        | ok u =>
          cases u
          simp only [hv, Except.ok.injEq, Prod.mk.injEq] at h
          obtain ⟨h1, h2⟩ := h
          constructor
          · rw [← h1]
            exact calculate_order_total_eq db items
          · exact validateItems_ok hv
  · intro role uid item_id body db db' h
    simp only [update_menu_item] at h
    split at h
    · simp at h
    · cases hA : getA item_id db.menu_items with
      | none => simp [hA] at h
      | some m =>
        simp only [hA] at h
        split at h
        · simp at h
        · simp only [Except.ok.injEq] at h
          intro oid
          rw [← h]

/-- A menu item owned by restaurant `R`, priced 10. -/
def burger10 : MenuItemRec := {
  restaurant_id := "R", name := "Burger", description := "tasty",
  price := 10, is_available := true }

/-- `burger10` repriced to 12. -/
def burger12 : MenuItemRec := { burger10 with price := 12 }

/-- A concrete store: restaurant `R`, customer `C`, menu item `m1` = `burger10`. -/
def db4 : Db := {
  users := [("R", UserRole.RESTAURANT), ("C", UserRole.CUSTOMER)],
  menu_items := [("m1", burger10)],
  orders := [],
  payments := [] }

/-- One line item: `2 × m1`. -/
def items4 : List OrderItemDict := [{ item_id := "m1", quantity := 2 }]

/-- The order created from `db4` by `2 × m1`. -/
def ord4c : OrderSt := {
  id := "o1", customer_id := "C", restaurant_id := "R",
  delivery_agent_id := none, items := items4,
  total_amount := 20, status := OrderStatus.PLACED }

/-- The payment settled for `ord4c` (80/20 split of 20). -/
def pay4c : PaymentRec := {
  id := "p1", order_id := "o1", amount := 20,
  restaurant_share := 16, delivery_fee := 4, status := "completed" }

/-- The store after creating `ord4c` in `db4`. -/
def db4c : Db := { db4 with orders := [("o1", ord4c)], payments := [pay4c] }

/-- The store after repricing `m1` from 10 to 12 in `db4c`. -/
def db4d : Db := { db4c with menu_items := [("m1", burger12)] }

theorem c4_total_creation_snapshot_witness :
    ord4c.total_amount =
      (items4.map (fun it => priceOf db4 it.item_id * (it.quantity : ℚ))).sum ∧
    (getA "o1" db4d.orders).map (fun o => o.total_amount) =
      (getA "o1" db4c.orders).map (fun o => o.total_amount) :=
  ⟨(c4_total_creation_snapshot.1 UserRole.CUSTOMER "C" "R"
      items4 "o1" "p1" db4 ord4c db4c (by
        norm_num [create_order, db4, ord4c, db4c, pay4c, items4, burger10,
          validateItems, calculate_order_total, process_payment, getA])).1,
   c4_total_creation_snapshot.2 UserRole.RESTAURANT "R" "m1"
      { name := "Burger", description := "tasty", price := 12, is_available := true }
      db4c db4d (by
        norm_num [update_menu_item, db4c, db4d, db4, ord4c, pay4c, burger10,
          burger12, getA, setA]) "o1"⟩

/-- C5: a payment request for an order that already has a payment returns
that payment record unchanged — same id, amount, restaurant_share and
delivery_fee — and leaves the store untouched; and `create_payment` preserves
the at-most-one-payment-per-order invariant. -/
theorem c5_payment_idempotent :
    (∀ role uid oid pid db o p,
      (role = UserRole.CUSTOMER ∨ role = UserRole.ADMIN) →
      getA oid db.orders = some o → o.customer_id = uid →
      findPaymentByOrder db.payments oid = some p →
      create_payment role uid oid pid db = Except.ok (p, db))
    ∧ (∀ role uid oid pid db p db',
        create_payment role uid oid pid db = Except.ok (p, db') →
        (db.payments.map (fun q => q.order_id)).Nodup →
        (db'.payments.map (fun q => q.order_id)).Nodup) := by
  constructor
  · intro role uid oid pid db o p hrole hord howner hpay
    rcases hrole with h | h <;>
      simp [create_payment, h, hord, howner, hpay]
  · intro role uid oid pid db p db' h hnd
    simp only [create_payment] at h
    split at h
    · simp at h
    · cases hord : getA oid db.orders with
      | none => simp [hord] at h
      | some o =>
        simp only [hord] at h
        split at h
        · simp at h
        · cases hpay : findPaymentByOrder db.payments oid with
          | some existing =>
            simp only [hpay, Except.ok.injEq, Prod.mk.injEq] at h
            rw [← h.2]
            exact hnd
          | none =>
            simp only [hpay, process_payment, Except.ok.injEq, Prod.mk.injEq] at h
            rw [← h.2]
            simp only [List.map_append, List.map_cons, List.map_nil]
            rw [List.nodup_append]
            refine ⟨hnd, List.nodup_singleton _, ?_⟩
            intro a ha hb
            rcases List.mem_singleton.mp hb with rfl
            obtain ⟨q, hq, hqa⟩ := List.mem_map.mp ha
            have := List.find?_eq_none.mp hpay q hq
            rw [beq_iff_eq] at this
            exact this (by rw [hqa])

/-- An order of total 20 owned by customer `C`. -/
def ord5 : OrderSt := { ord1 with total_amount := 20 }

/-- The payment already settled for `ord5`. -/
def pay5 : PaymentRec := {
  id := "p0", order_id := "o1", amount := 20,
  restaurant_share := 16, delivery_fee := 4, status := "completed" }

/-- A store where order `o1` already has payment `pay5`. -/
def db5 : Db := {
  users := [], menu_items := [],
  orders := [("o1", ord5)],
  payments := [pay5] }

theorem c5_payment_idempotent_witness :
    create_payment UserRole.CUSTOMER "C" "o1" "p9" db5 = Except.ok (pay5, db5) :=
  c5_payment_idempotent.1 UserRole.CUSTOMER "C" "o1" "p9" db5 ord5 pay5
    (Or.inl rfl) rfl rfl rfl

/-- C6: every payment created by the mock settlement has `amount` equal to
the total it was invoked with, `restaurant_share` equal to 80% of it and
`delivery_fee` equal to 20% of it; and a first payment request for an order
settles exactly `process_payment` applied to the order's current
`total_amount`. -/
theorem c6_settlement_split :
    (∀ pid oid (amt : ℚ) (db : Db),
      (process_payment pid oid amt db).1.amount = amt ∧
      (process_payment pid oid amt db).1.restaurant_share = (4 / 5 : ℚ) * amt ∧
      (process_payment pid oid amt db).1.delivery_fee = (1 / 5 : ℚ) * amt)
    ∧ (∀ role uid oid pid db o,
        (role = UserRole.CUSTOMER ∨ role = UserRole.ADMIN) →
        getA oid db.orders = some o → o.customer_id = uid →
        findPaymentByOrder db.payments oid = none →
        create_payment role uid oid pid db =
          Except.ok (process_payment pid oid o.total_amount db)) := by
  constructor
  · intro pid oid amt db
    refine ⟨rfl, ?_, ?_⟩
    · show amt * (0.8 : ℚ) = (4 / 5 : ℚ) * amt
      rw [show (0.8 : ℚ) = 4 / 5 by norm_num]
      ring
    · show amt * (0.2 : ℚ) = (1 / 5 : ℚ) * amt
      rw [show (0.2 : ℚ) = 1 / 5 by norm_num]
      ring
  · intro role uid oid pid db o hrole hord howner hpay
    rcases hrole with h | h <;>
      simp [create_payment, h, hord, howner, hpay]

/-- A store where order `o1` (total 20) has no payment yet. -/
def db6 : Db := {
  users := [], menu_items := [],
  orders := [("o1", ord5)],
  payments := [] }

theorem c6_settlement_split_witness :
    create_payment UserRole.CUSTOMER "C" "o1" "p1" db6 =
      Except.ok (process_payment "p1" "o1" (20 : ℚ) db6) ∧
    (process_payment "p1" "o1" (20 : ℚ) db6).1.restaurant_share =
      (4 / 5 : ℚ) * 20 :=
  ⟨c6_settlement_split.2 UserRole.CUSTOMER "C" "o1" "p1" db6 ord5
      (Or.inl rfl) rfl rfl rfl,
   (c6_settlement_split.1 "p1" "o1" (20 : ℚ) db6).2.1⟩

end FoodDelivery
